import Mathlib

/-!
Verification of the firewall service plugin
(`neutron/services/firewall/fwaas_plugin.py`).

The plugin orchestrates firewall lifecycle state: it guards mutations with
a pending-state check, computes router-attachment diffs, dispatches
create/update/delete notifications to agents, and reconciles asynchronous
acknowledgments (`set_firewall_status`, `firewall_deleted`).

The embedding below models the persisted store (firewalls, policies, rules,
router associations) as explicit state, fire-and-forget agent RPC casts as an
accumulated list of notifications, and raised exceptions as `Except` errors.
Persistence-mixin helpers that the plugin inherits (plain CRUD on the store)
are modelled from the specification of the external store, as noted on each.
-/

namespace Fwaas

/-- Firewall lifecycle status constants (`plugins.common.constants`). -/
inductive Status where
  | INACTIVE
  | ACTIVE
  | DOWN
  | PENDING_CREATE
  | PENDING_UPDATE
  | PENDING_DELETE
  | ERROR
deriving DecidableEq, Repr

/-- A persisted firewall record: id, tenant, optional policy reference,
current status. -/
structure Firewall where
  id : Nat
  tenantId : Nat
  policyId : Option Nat
  status : Status
deriving DecidableEq, Repr

/-- A persisted firewall policy: id, ordered rule ids, and the back-reference
list of firewalls using the policy (`firewall_list`). -/
structure Policy where
  id : Nat
  ruleIds : List Nat
  firewallList : List Nat
deriving DecidableEq, Repr

/-- A persisted firewall rule: id and optional containing policy. -/
structure Rule where
  id : Nat
  policyId : Option Nat
deriving DecidableEq, Repr

/-- The persisted store reachable through the DB mixin, plus the external
router lookup (`routers` maps router id to owning tenant).
`routerAssocs` maps a firewall id to its associated router ids. -/
structure DbState where
  firewalls : List Firewall
  policies : List Policy
  rules : List Rule
  routerAssocs : List (Nat × List Nat)
  routers : List (Nat × Nat)
deriving DecidableEq, Repr

/-- Exceptions raised by the plugin or the store. -/
inductive FwErr where
  | FirewallInPendingState (fwId : Nat) (pendingState : Status)
  | RoutersInUse
  | FirewallNotFound (fwId : Nat)
  | RuleNotFound (ruleId : Nat)
deriving DecidableEq, Repr

/-- Kind of agent RPC fanout cast (`FirewallAgentApi`). -/
inductive NotifyKind where
  | createFw
  | updateFw
  | deleteFw
deriving DecidableEq, Repr

/-- The firewall payload of a fanout cast: the firewall id, its resolved rule
list, the `add-router-ids` / `del-router-ids` sets and the optional
`last-router` hint. -/
structure FwPayload where
  fwId : Nat
  ruleList : List Nat
  addRouterIds : List Nat
  delRouterIds : List Nat
  lastRouter : Option Bool
deriving DecidableEq, Repr

/-- One dispatched fanout notification. -/
structure Notification where
  kind : NotifyKind
  payload : FwPayload
deriving DecidableEq, Repr

/-- Observable store effects of the acknowledgment handler, used to state
what a call did and did not do (reads and destructive writes). -/
inductive Effect where
  | getFirewall (fwId : Nat)
  | deleteRecord (fwId : Nat)
  | setError (fwId : Nat)
deriving DecidableEq, Repr

/-- The argument actually passed to `get_firewall_routers`: either a firewall
id, or — in `_rpc_update_firewall`, which passes the Python builtin `id`
instead of `firewall_id` — a value that is not any firewall's id. -/
inductive DbKey where
  | fwid (i : Nat)
  | pyBuiltinId
deriving DecidableEq, Repr

/-- Modelled from the spec: store lookup of a firewall record by id
(`_get_firewall` / `get_firewall` of the persistence mixin, external store). -/
def findFw (st : DbState) (i : Nat) : Option Firewall :=
  st.firewalls.find? (fun f => f.id == i)

/-- Current persisted status of a firewall id, when the record exists. -/
def statusOf (st : DbState) (i : Nat) : Option Status :=
  (findFw st i).map Firewall.status

/-- Modelled from the spec: store lookup of a policy (`get_firewall_policy`). -/
def findPolicy (st : DbState) (i : Nat) : Option Policy :=
  st.policies.find? (fun p => p.id == i)

/-- Modelled from the spec: store lookup of a rule (`get_firewall_rule`). -/
def findRule (st : DbState) (i : Nat) : Option Rule :=
  st.rules.find? (fun r => r.id == i)

/-- Modelled from the spec: the mixin `update_firewall` restricted to a status
write, the only field the plugin's flows change through it. -/
def setStatus (st : DbState) (i : Nat) (s : Status) : DbState :=
  { st with firewalls :=
      st.firewalls.map (fun f => if f.id == i then { f with status := s } else f) }

/-- Modelled from the spec: the mixin `delete_firewall`, removing the record. -/
def removeFw (st : DbState) (i : Nat) : DbState :=
  { st with firewalls := st.firewalls.filter (fun f => f.id != i) }

/-- Modelled from the spec: `get_firewall_routers` of the router-insertion
mixin, a query of the association table keyed by firewall id. The Python
builtin function object passed by `_rpc_update_firewall` equals no stored
firewall id, so that query matches no row. -/
def get_firewall_routers (st : DbState) : DbKey → List Nat
  | .fwid i => ((st.routerAssocs.find? (fun p => p.1 == i)).map Prod.snd).getD []
  | .pyBuiltinId => []

/-- Modelled from the spec: `set_routers_for_firewall` / `update_firewall_routers`
of the router-insertion mixin, replacing a firewall's associations. -/
def setRouters (st : DbState) (i : Nat) (rs : List Nat) : DbState :=
  { st with routerAssocs := (i, rs) :: st.routerAssocs.filter (fun p => p.1 != i) }

/-- Modelled from the spec: `validate_firewall_routers_not_in_use` — true when
some requested router already belongs to a firewall other than `excl`. -/
def routersInUse (st : DbState) (ids : List Nat) (excl : Option Nat) : Bool :=
  ids.any (fun r =>
    st.routerAssocs.any (fun p => (some p.1 != excl) && p.2.contains r))

/-- Embedding of `_make_firewall_dict_with_rules`: resolve the firewall's rule list through
its policy (empty when it has no policy). Claims need only the rule
identities, so the payload is the ordered list of rule ids. -/
def _make_firewall_dict_with_rules (st : DbState) (fwId : Nat) : List Nat :=
  match findFw st fwId with
  | none => []
  | some fw =>
    match fw.policyId with
    | none => []
    | some pid =>
      match findPolicy st pid with
      | none => []
      | some p => p.ruleIds

/-- Embedding of `set_firewall_status` of `FirewallCallbacks`: reject silently when the
firewall is in `PENDING_DELETE`; persist `ACTIVE`/`DOWN` with success; coerce
anything else to `ERROR` with failure. -/
def set_firewall_status (st : DbState) (fwId : Nat) (status : Status) :
    Except FwErr (Bool × DbState) :=
  match findFw st fwId with
  | none => .error (.FirewallNotFound fwId)
  | some fw =>
    if fw.status = .PENDING_DELETE then
      .ok (false, st)
    else if status = .ACTIVE ∨ status = .DOWN then
      .ok (true, setStatus st fwId status)
    else
      .ok (false, setStatus st fwId .ERROR)

/-- Embedding of `delete_db_firewall_object`: re-read the record and remove it only when
its status equals `PENDING_DELETE`. Returns the new store and the effects
performed. -/
def delete_db_firewall_object (st : DbState) (fwId : Nat) :
    DbState × List Effect :=
  match findFw st fwId with
  | none => (st, [Effect.getFirewall fwId])
  | some fw =>
    if fw.status = .PENDING_DELETE then
      (removeFw st fwId, [Effect.getFirewall fwId, Effect.deleteRecord fwId])
    else
      (st, [Effect.getFirewall fwId])

/-- Embedding of `firewall_deleted` of `FirewallCallbacks`. `cb` is the process-wide
`firewall_deleted_ids` list. When the id is already recorded the guarded body
is skipped and Python returns `None` (modelled `none`); on first receipt the
id is recorded, the record is re-read, and either the destruction helper runs
(status `PENDING_DELETE` or `ERROR`) with result `true`, or the status is
forced to `ERROR` with result `false`. -/
def firewall_deleted (cb : List Nat) (st : DbState) (fwId : Nat) :
    Except FwErr (Option Bool × List Nat × DbState × List Effect) :=
  if fwId ∈ cb then
    .ok (none, cb, st, [])
  else
    let cb' := cb ++ [fwId]
    match findFw st fwId with
    | none => .error (.FirewallNotFound fwId)
    | some fw =>
      if fw.status = .PENDING_DELETE ∨ fw.status = .ERROR then
        let r := delete_db_firewall_object st fwId
        .ok (some true, cb', r.1, Effect.getFirewall fwId :: r.2)
      else
        .ok (some false, cb', setStatus st fwId .ERROR,
             [Effect.getFirewall fwId, Effect.setError fwId])

/-- Embedding of `_ensure_update_firewall`: raise `FirewallInPendingState` when the
firewall's status is one of the three pending states. -/
def _ensure_update_firewall (st : DbState) (fwId : Nat) : Except FwErr Unit :=
  match findFw st fwId with
  | none => .error (.FirewallNotFound fwId)
  | some fw =>
    if fw.status = .PENDING_CREATE ∨ fw.status = .PENDING_UPDATE ∨
        fw.status = .PENDING_DELETE then
      .error (.FirewallInPendingState fwId fw.status)
    else
      .ok ()

/-- The loop body of `_ensure_update_firewall_policy` over `firewall_list`. -/
def ensureFwList (st : DbState) : List Nat → Except FwErr Unit
  | [] => .ok ()
  | f :: rest => do
    _ensure_update_firewall st f
    ensureFwList st rest

/-- Embedding of `_ensure_update_firewall_policy`: guard every firewall referencing the
policy (skipped when the policy lookup is falsy, as the source checks). -/
def _ensure_update_firewall_policy (st : DbState) (pid : Nat) :
    Except FwErr Unit :=
  match findPolicy st pid with
  | none => .ok ()
  | some p => ensureFwList st p.firewallList

/-- Embedding of `_ensure_update_firewall_rule`: guard via the rule's containing policy,
when it has one. -/
def _ensure_update_firewall_rule (st : DbState) (rid : Nat) :
    Except FwErr Unit :=
  match findRule st rid with
  | none => .error (.RuleNotFound rid)
  | some r =>
    match r.policyId with
    | none => .ok ()
    | some pid => _ensure_update_firewall_policy st pid

/-- Embedding of `_rpc_update_firewall`: persist `PENDING_UPDATE`, rebuild the payload, set
`add-router-ids` from a lookup keyed by the Python builtin `id` (the source
passes `id`, not `firewall_id`, here), set `del-router-ids = []`, and cast an
update to the agents. -/
def _rpc_update_firewall (st : DbState) (fwId : Nat) :
    Except FwErr (DbState × List Notification) :=
  match findFw st fwId with
  | none => .error (.FirewallNotFound fwId)
  | some _ =>
    let st1 := setStatus st fwId .PENDING_UPDATE
    let ruleList := _make_firewall_dict_with_rules st1 fwId
    let addR := get_firewall_routers st1 .pyBuiltinId
    .ok (st1, [⟨.updateFw,
      { fwId := fwId, ruleList := ruleList, addRouterIds := addR,
        delRouterIds := [], lastRouter := none }⟩])

/-- The loop body of `_rpc_update_firewall_policy` over `firewall_list`. -/
def rpcUpdateFwList (st : DbState) : List Nat →
    Except FwErr (DbState × List Notification)
  | [] => .ok (st, [])
  | f :: rest => do
    let r1 ← _rpc_update_firewall st f
    let r2 ← rpcUpdateFwList r1.1 rest
    .ok (r2.1, r1.2 ++ r2.2)

/-- Embedding of `_rpc_update_firewall_policy`: re-dispatch an update for every firewall
referencing the policy. -/
def _rpc_update_firewall_policy (st : DbState) (pid : Nat) :
    Except FwErr (DbState × List Notification) :=
  match findPolicy st pid with
  | none => .ok (st, [])
  | some p => rpcUpdateFwList st p.firewallList

/-- The `router_ids` attribute of a create request: absent
(`ATTR_NOT_SPECIFIED`) or an explicit list (possibly empty). -/
inductive RouterSpec where
  | notSpecified
  | given (ids : List Nat)
deriving DecidableEq, Repr

/-- A create request: tenant, the id the store will assign to the new record,
its policy reference and the requested routers. -/
structure CreateReq where
  tenantId : Nat
  newFwId : Nat
  policyId : Option Nat
  routerIds : RouterSpec
deriving DecidableEq, Repr

/-- Embedding of `_get_routers_for_create_firewall`: unspecified routers resolve to all the
tenant's routers (validated not in use); an explicit empty list resolves to no
attachment; explicit ids are validated not in use and returned unchanged. -/
def _get_routers_for_create_firewall (st : DbState) (tenantId : Nat)
    (spec : RouterSpec) : Except FwErr (List Nat) :=
  match spec with
  | .notSpecified =>
    let routerIds := (st.routers.filter (fun r => r.2 == tenantId)).map Prod.fst
    if routersInUse st routerIds none then .error .RoutersInUse
    else .ok routerIds
  | .given ids =>
    if ids = [] then .ok []
    else if routersInUse st ids none then .error .RoutersInUse
    else .ok ids

/-- Embedding of `create_firewall`: resolve routers; with an empty resolution persist the
record directly as `INACTIVE` and return without dispatch; otherwise persist
as `PENDING_CREATE` (the store default), persist the associations, and cast a
create with `add = resolved routers`, `del = []`. -/
def create_firewall (st : DbState) (req : CreateReq) :
    Except FwErr (Firewall × DbState × List Notification) := do
  let fwNewRtrs ← _get_routers_for_create_firewall st req.tenantId req.routerIds
  if fwNewRtrs = [] then
    let fw : Firewall :=
      { id := req.newFwId, tenantId := req.tenantId,
        policyId := req.policyId, status := .INACTIVE }
    .ok (fw, { st with firewalls := st.firewalls ++ [fw] }, [])
  else
    let fw : Firewall :=
      { id := req.newFwId, tenantId := req.tenantId,
        policyId := req.policyId, status := .PENDING_CREATE }
    let st1 : DbState := { st with firewalls := st.firewalls ++ [fw] }
    let ruleList := _make_firewall_dict_with_rules st1 req.newFwId
    let st2 := setRouters st1 req.newFwId fwNewRtrs
    .ok (fw, st2, [⟨.createFw,
      { fwId := req.newFwId, ruleList := ruleList, addRouterIds := fwNewRtrs,
        delRouterIds := [], lastRouter := none }⟩])

/-- The `router_ids` attribute of an update request: absent (key not given,
keep existing attachments) or an explicit list (possibly empty). -/
inductive UpdateRouterSpec where
  | absent
  | given (ids : List Nat)
deriving DecidableEq, Repr

/-- The `del-router-ids` computation of `update_firewall`:
`list(set(current).difference(set(new)))`, a pure set difference. -/
def routersDel (cur new : List Nat) : List Nat :=
  cur.dedup.filter (fun x => decide (x ∉ new))

/-- Embedding of `update_firewall`: pending-state guard first; resolve the new attachment
set (validating explicit non-empty lists and persisting the associations);
with both current and new sets empty persist `INACTIVE` and skip dispatch;
otherwise persist `PENDING_UPDATE` and cast an update whose payload carries
`add-router-ids = new set`, `del-router-ids = current − new` and
`last-router = (new set is empty)`. -/
def update_firewall (st : DbState) (fwId : Nat) (req : UpdateRouterSpec) :
    Except FwErr (DbState × List Notification) := do
  _ensure_update_firewall st fwId
  let fwCurrentRtrs := get_firewall_routers st (.fwid fwId)
  let r1 : DbState × List Nat ←
    match req with
    | .given ids =>
      if ids = [] then
        pure (setRouters st fwId [], ([] : List Nat))
      else if routersInUse st ids (some fwId) then
        throw FwErr.RoutersInUse
      else
        pure (setRouters st fwId ids, ids)
    | .absent => pure (st, get_firewall_routers st (.fwid fwId))
  let st1 := r1.1
  let fwNewRtrs := r1.2
  if fwNewRtrs = [] ∧ fwCurrentRtrs = [] then
    .ok (setStatus st1 fwId .INACTIVE, [])
  else
    let st2 := setStatus st1 fwId .PENDING_UPDATE
    let ruleList := _make_firewall_dict_with_rules st2 fwId
    .ok (st2, [⟨.updateFw,
      { fwId := fwId, ruleList := ruleList, addRouterIds := fwNewRtrs,
        delRouterIds := routersDel fwCurrentRtrs fwNewRtrs,
        lastRouter := some fwNewRtrs.isEmpty }⟩])

/-- Embedding of `delete_firewall`: persist `PENDING_DELETE` unconditionally (no pending
guard), set `del = current attachments`, `add = []`; with no routers destroy
the record synchronously through `delete_db_firewall_object` and dispatch
nothing, otherwise cast a delete and leave the record pending. -/
def delete_firewall (st : DbState) (fwId : Nat) :
    Except FwErr (DbState × List Notification) :=
  match findFw st fwId with
  | none => .error (.FirewallNotFound fwId)
  | some _ =>
    let st1 := setStatus st fwId .PENDING_DELETE
    let ruleList := _make_firewall_dict_with_rules st1 fwId
    let delR := get_firewall_routers st1 (.fwid fwId)
    if delR = [] then
      .ok ((delete_db_firewall_object st1 fwId).1, [])
    else
      .ok (st1, [⟨.deleteFw,
        { fwId := fwId, ruleList := ruleList, addRouterIds := [],
          delRouterIds := delR, lastRouter := none }⟩])

/-- Embedding of `update_firewall_policy`: guard every referencing firewall, apply the
store edit (opaque to this core, passed as `dbEdit`), then fan the update out. -/
def update_firewall_policy (st : DbState) (pid : Nat)
    (dbEdit : DbState → DbState) : Except FwErr (DbState × List Notification) := do
  _ensure_update_firewall_policy st pid
  _rpc_update_firewall_policy (dbEdit st) pid

/-- Embedding of `insert_rule`: same guard / edit / fanout shape as a policy update. -/
def insert_rule (st : DbState) (pid : Nat) (dbEdit : DbState → DbState) :
    Except FwErr (DbState × List Notification) := do
  _ensure_update_firewall_policy st pid
  _rpc_update_firewall_policy (dbEdit st) pid

/-- Embedding of `remove_rule`: same guard / edit / fanout shape as a policy update. -/
def remove_rule (st : DbState) (pid : Nat) (dbEdit : DbState → DbState) :
    Except FwErr (DbState × List Notification) := do
  _ensure_update_firewall_policy st pid
  _rpc_update_firewall_policy (dbEdit st) pid

/-- Embedding of `update_firewall_rule`: guard via the rule's current policy, apply the
store edit, then fan out via the edited rule's (possibly new) policy. -/
def update_firewall_rule (st : DbState) (rid : Nat)
    (dbEdit : DbState → DbState) : Except FwErr (DbState × List Notification) := do
  _ensure_update_firewall_rule st rid
  let st1 := dbEdit st
  match findRule st1 rid with
  | none => .error (.RuleNotFound rid)
  | some r =>
    match r.policyId with
    | some pid => _rpc_update_firewall_policy st1 pid
    | none => .ok (st1, [])

/-! ## Concrete states used to instantiate the theorems -/

/-- An `ACTIVE` firewall with policy 5 and routers 3 and 4. -/
def fwA : Firewall := { id := 1, tenantId := 10, policyId := some 5, status := .ACTIVE }

/-- A `DOWN` firewall with no policy and no routers. -/
def fwB : Firewall := { id := 2, tenantId := 11, policyId := none, status := .DOWN }

/-- A store with two firewalls, one policy (rules 21 and 22, referenced by
firewall 1), and two routers of tenant 10 attached to firewall 1. -/
def stA : DbState :=
  { firewalls := [fwA, fwB],
    policies := [{ id := 5, ruleIds := [21, 22], firewallList := [1] }],
    rules := [{ id := 21, policyId := some 5 }, { id := 22, policyId := some 5 }],
    routerAssocs := [(1, [3, 4])],
    routers := [(3, 10), (4, 10)] }

/-- Variant of `stA` with firewall 1 in `PENDING_UPDATE`. -/
def stP : DbState :=
  { firewalls := [{ id := 1, tenantId := 10, policyId := some 5,
                    status := .PENDING_UPDATE }, fwB],
    policies := [{ id := 5, ruleIds := [21, 22], firewallList := [1] }],
    rules := [{ id := 21, policyId := some 5 }, { id := 22, policyId := some 5 }],
    routerAssocs := [(1, [3, 4])],
    routers := [(3, 10), (4, 10)] }

/-- A store with one router-less firewall in `PENDING_DELETE`. -/
def stD : DbState :=
  { firewalls := [{ id := 2, tenantId := 10, policyId := none,
                    status := .PENDING_DELETE }],
    policies := [], rules := [], routerAssocs := [], routers := [] }

/-- State `stD` after its only firewall record has been destroyed. -/
def stDdel : DbState :=
  { firewalls := [], policies := [], rules := [], routerAssocs := [],
    routers := [] }

/-- A store with one firewall in `ERROR`. -/
def stE : DbState :=
  { firewalls := [{ id := 3, tenantId := 10, policyId := none,
                    status := .ERROR }],
    policies := [], rules := [], routerAssocs := [], routers := [] }

/-! ## Store helper lemmas -/

theorem find?_setStatusMap (l : List Firewall) (g f : Nat) (s : Status) :
    (l.map (fun x => if x.id == g then { x with status := s } else x)).find?
        (fun x => x.id == f) =
      (l.find? (fun x => x.id == f)).map
        (fun x => if x.id == g then { x with status := s } else x) := by
  induction l with
  | nil => rfl
  | cons a l ih =>
    have hid : (if a.id == g then { a with status := s } else a).id = a.id := by
      split <;> rfl
    rw [List.map_cons]
    simp only [List.find?]
    rw [hid]
    by_cases hf : a.id = f
    · have h2 : (a.id == f) = true := by simp [hf]
      rw [h2]
      rfl
    · have h2 : (a.id == f) = false := by simp [hf]
      rw [h2]
      exact ih

/-- Lemma: `setStatus` rewrites only the targeted record's status field. -/
theorem findFw_setStatus (st : DbState) (g f : Nat) (s : Status) :
    findFw (setStatus st g s) f =
      (findFw st f).map
        (fun x => if x.id == g then { x with status := s } else x) := by
  simpa [findFw, setStatus] using find?_setStatusMap st.firewalls g f s

/-- Setting a status leaves every record in place. -/
theorem findFw_setStatus_isSome (st : DbState) (g f : Nat) (s : Status) :
    (findFw (setStatus st g s) f).isSome = (findFw st f).isSome := by
  rw [findFw_setStatus]; cases findFw st f <;> rfl

/-- The record found by `findFw` carries the id it was looked up with. -/
theorem findFw_id (st : DbState) (f : Nat) (fw : Firewall)
    (h : findFw st f = some fw) : fw.id = f := by
  have := List.find?_some h
  simpa using this

/-- Setting the status of the found record. -/
theorem findFw_setStatus_self (st : DbState) (f : Nat) (s : Status)
    (fw : Firewall) (h : findFw st f = some fw) :
    findFw (setStatus st f s) f = some { fw with status := s } := by
  rw [findFw_setStatus, h]
  have hid : fw.id = f := findFw_id st f fw h
  simp [hid]

/-- Setting the status of a different record. -/
theorem findFw_setStatus_other (st : DbState) (g f : Nat) (s : Status)
    (hne : g ≠ f) : findFw (setStatus st g s) f = findFw st f := by
  rw [findFw_setStatus]
  cases hfind : findFw st f with
  | none => rfl
  | some fw =>
    have hid : fw.id = f := findFw_id st f fw hfind
    simp [hid, Ne.symm hne]

/-- A destroyed record is no longer found. -/
theorem findFw_removeFw (st : DbState) (f : Nat) :
    findFw (removeFw st f) f = none := by
  simp only [findFw, removeFw, List.find?_eq_none]
  intro a ha
  have := (List.mem_filter.mp ha).2
  simpa using this

/-- Lemma: `setStatus` does not touch the association table. -/
theorem get_firewall_routers_setStatus (st : DbState) (g : Nat) (s : Status)
    (k : DbKey) :
    get_firewall_routers (setStatus st g s) k = get_firewall_routers st k := by
  cases k <;> rfl

/-- Lemma: `setStatus` does not touch the policy store, and preserves the found
record's policy reference, so rule-list resolution is unchanged. -/
theorem make_rules_setStatus (st : DbState) (g : Nat) (s : Status) (f : Nat) :
    _make_firewall_dict_with_rules (setStatus st g s) f =
      _make_firewall_dict_with_rules st f := by
  unfold _make_firewall_dict_with_rules
  rw [findFw_setStatus]
  cases hfw : findFw st f with
  | none => rfl
  | some fw =>
    by_cases hid : fw.id = g <;> simp [hid] <;> cases fw.policyId <;> rfl

theorem except_bind_ok {ε α β : Type} (a : α) (f : α → Except ε β) :
    (Except.ok a >>= f) = f a := rfl

theorem except_bind_error {ε α β : Type} (e : ε) (f : α → Except ε β) :
    ((Except.error e : Except ε α) >>= f) = .error e := rfl

/-- A guarded `firewall_list` errors with `FirewallInPendingState` when it
contains an existing pending firewall and every listed firewall exists. -/
theorem ensureFwList_pending (st : DbState) (l : List Nat)
    (hex : ∀ g ∈ l, (findFw st g).isSome)
    (f : Nat) (hf : f ∈ l) (fw : Firewall) (hfw : findFw st f = some fw)
    (hp : fw.status = .PENDING_CREATE ∨ fw.status = .PENDING_UPDATE ∨
          fw.status = .PENDING_DELETE) :
    ∃ g s, ensureFwList st l = .error (.FirewallInPendingState g s) := by
  induction l with
  | nil => cases hf
  | cons a l ih =>
    obtain ⟨fwa, hfwa⟩ :=
      Option.isSome_iff_exists.mp (hex a (List.mem_cons_self a l))
    by_cases hpa : fwa.status = .PENDING_CREATE ∨
        fwa.status = .PENDING_UPDATE ∨ fwa.status = .PENDING_DELETE
    · refine ⟨a, fwa.status, ?_⟩
      have hens : _ensure_update_firewall st a =
          .error (.FirewallInPendingState a fwa.status) := by
        simp [_ensure_update_firewall, hfwa, hpa]
      simp [ensureFwList, hens, except_bind_error]
    · have hens : _ensure_update_firewall st a = .ok () := by
        simp [_ensure_update_firewall, hfwa, hpa]
      have hfl : f ∈ l := by
        rcases List.mem_cons.mp hf with h | h
        · subst h
          rw [hfw] at hfwa
          injection hfwa with h2
          subst h2
          exact absurd hp hpa
        · exact h
      obtain ⟨g, s2, hgs⟩ :=
        ih (fun g hg => hex g (List.mem_cons_of_mem a hg)) hfl
      exact ⟨g, s2, by simp [ensureFwList, hens, except_bind_ok, hgs]⟩

/-- C1: a firewall whose persisted status is pending rejects `update_firewall`
with `FirewallInPendingState`, and so do `update_firewall_policy`,
`insert_rule`, `remove_rule` and `update_firewall_rule` on a policy or rule
whose `firewall_list` reaches it — in every case the guard raises before any
persistence or dispatch (the error carries no new state and no notification);
`delete_firewall` never raises this and succeeds from any status. -/
theorem pending_state_guard (st : DbState) (fwId : Nat) (fw : Firewall)
    (hfw : findFw st fwId = some fw)
    (hp : fw.status = .PENDING_CREATE ∨ fw.status = .PENDING_UPDATE ∨
          fw.status = .PENDING_DELETE) :
    (∀ req, update_firewall st fwId req =
        .error (.FirewallInPendingState fwId fw.status)) ∧
    (∀ pid p e, findPolicy st pid = some p → fwId ∈ p.firewallList →
        (∀ g ∈ p.firewallList, (findFw st g).isSome) →
        (∃ g s, update_firewall_policy st pid e =
            .error (.FirewallInPendingState g s)) ∧
        (∃ g s, insert_rule st pid e =
            .error (.FirewallInPendingState g s)) ∧
        (∃ g s, remove_rule st pid e =
            .error (.FirewallInPendingState g s))) ∧
    (∀ rid r pid p e, findRule st rid = some r → r.policyId = some pid →
        findPolicy st pid = some p → fwId ∈ p.firewallList →
        (∀ g ∈ p.firewallList, (findFw st g).isSome) →
        ∃ g s, update_firewall_rule st rid e =
            .error (.FirewallInPendingState g s)) ∧
    (∃ st' ns, delete_firewall st fwId = .ok (st', ns)) := by
  have hens : _ensure_update_firewall st fwId =
      .error (.FirewallInPendingState fwId fw.status) := by
    simp [_ensure_update_firewall, hfw, hp]
  refine ⟨?_, ?_, ?_, ?_⟩
  · intro req
    simp [update_firewall, hens, except_bind_error]
  · intro pid p e hpol hmem hex
    obtain ⟨g, s2, hgs⟩ := ensureFwList_pending st p.firewallList hex fwId hmem fw hfw hp
    have hpens : _ensure_update_firewall_policy st pid =
        .error (.FirewallInPendingState g s2) := by
      simp [_ensure_update_firewall_policy, hpol, hgs]
    refine ⟨⟨g, s2, ?_⟩, ⟨g, s2, ?_⟩, ⟨g, s2, ?_⟩⟩ <;>
      simp [update_firewall_policy, insert_rule, remove_rule, hpens,
        except_bind_error]
  · intro rid r pid p e hr hrp hpol hmem hex
    obtain ⟨g, s2, hgs⟩ := ensureFwList_pending st p.firewallList hex fwId hmem fw hfw hp
    have hrens : _ensure_update_firewall_rule st rid =
        .error (.FirewallInPendingState g s2) := by
      simp [_ensure_update_firewall_rule, hr, hrp, _ensure_update_firewall_policy,
        hpol, hgs]
    exact ⟨g, s2, by simp [update_firewall_rule, hrens, except_bind_error]⟩
  · simp only [delete_firewall, hfw]
    split
    · exact ⟨_, _, rfl⟩
    · exact ⟨_, _, rfl⟩

/-- C1 witness: with firewall 1 in `PENDING_UPDATE`, updating it and editing
its policy or a rule of its policy all fail, while deletion dispatches. -/
theorem pending_state_guard_witness :
    update_firewall stP 1 .absent =
      .error (.FirewallInPendingState 1 .PENDING_UPDATE) ∧
    insert_rule stP 5 (fun s => s) =
      .error (.FirewallInPendingState 1 .PENDING_UPDATE) ∧
    update_firewall_rule stP 21 (fun s => s) =
      .error (.FirewallInPendingState 1 .PENDING_UPDATE) ∧
    delete_firewall stP 1 =
      .ok (setStatus stP 1 .PENDING_DELETE,
        [⟨.deleteFw, ⟨1, [21, 22], [], [3, 4], none⟩⟩]) := by
  have h := pending_state_guard stP 1
      ⟨1, 10, some 5, .PENDING_UPDATE⟩ rfl (Or.inr (Or.inl rfl))
  exact ⟨h.1 .absent, rfl, rfl, rfl⟩

/-- C3: `set_firewall_status` on a firewall in `PENDING_DELETE` returns the
failure flag and leaves the store unchanged for every reported status; on a
firewall not in `PENDING_DELETE`, a reported `ACTIVE` or `DOWN` is persisted
with success, and any other reported status persists `ERROR` with failure. -/
theorem set_firewall_status_spec (st : DbState) (fwId : Nat) (fw : Firewall)
    (status : Status) (hfw : findFw st fwId = some fw) :
    (fw.status = .PENDING_DELETE →
      set_firewall_status st fwId status = .ok (false, st)) ∧
    (fw.status ≠ .PENDING_DELETE → (status = .ACTIVE ∨ status = .DOWN) →
      set_firewall_status st fwId status = .ok (true, setStatus st fwId status) ∧
      statusOf (setStatus st fwId status) fwId = some status) ∧
    (fw.status ≠ .PENDING_DELETE → status ≠ .ACTIVE → status ≠ .DOWN →
      set_firewall_status st fwId status =
        .ok (false, setStatus st fwId .ERROR) ∧
      statusOf (setStatus st fwId .ERROR) fwId = some .ERROR) := by
  refine ⟨?_, ?_, ?_⟩
  · intro hpd
    simp [set_firewall_status, hfw, hpd]
  · intro hnpd had
    refine ⟨?_, ?_⟩
    · rcases had with h | h <;> simp [set_firewall_status, hfw, hnpd, h]
    · simp [statusOf, findFw_setStatus_self st fwId status fw hfw]
  · intro hnpd hna hnd
    refine ⟨?_, ?_⟩
    · have hno : ¬(status = .ACTIVE ∨ status = .DOWN) := by tauto
      simp [set_firewall_status, hfw, hnpd, hno]
    · simp [statusOf, findFw_setStatus_self st fwId .ERROR fw hfw]

/-- C3 witness: a persisted `DOWN` report, a rejected report during
`PENDING_DELETE`, and a coerced-to-`ERROR` report. -/
theorem set_firewall_status_spec_witness :
    (set_firewall_status stA 1 .DOWN = .ok (true, setStatus stA 1 .DOWN) ∧
      statusOf (setStatus stA 1 .DOWN) 1 = some .DOWN) ∧
    set_firewall_status stD 2 .ACTIVE = .ok (false, stD) ∧
    set_firewall_status stA 1 .PENDING_CREATE =
      .ok (false, setStatus stA 1 .ERROR) := by
  have h1 := set_firewall_status_spec stA 1 fwA .DOWN rfl
  have h2 := set_firewall_status_spec stD 2
      ⟨2, 10, none, .PENDING_DELETE⟩ .ACTIVE rfl
  have h3 := set_firewall_status_spec stA 1 fwA .PENDING_CREATE rfl
  exact ⟨h1.2.1 (by decide) (Or.inr rfl), h2.1 rfl,
    (h3.2.2 (by decide) (by decide) (by decide)).1⟩

theorem except_pure_bind {ε α β : Type} (a : α) (f : α → Except ε β) :
    (pure a >>= f : Except ε β) = f a := rfl

/-- C4 (the code at the failing input): on the first `firewall_deleted` call
for a firewall whose current status is `ERROR`, the call returns success
(`some true`) but the store is unchanged and the record survives, because
`delete_db_firewall_object` only removes a record whose status is
`PENDING_DELETE` — against the claim and the source's own comment
"allow to delete firewalls in ERROR state". -/
theorem firewall_deleted_error_keeps_record :
    firewall_deleted [] stE 3 =
      .ok (some true, [3], stE, [.getFirewall 3, .getFirewall 3]) ∧
    findFw stE 3 = some ⟨3, 10, none, .ERROR⟩ := ⟨rfl, rfl⟩

/-- C8 (amended): `firewall_deleted` is idempotent — any successful call
records the id in the process-wide list, and a repeated call with that list
never raises and never destroys again; but the repeated call performs no
store effect at all (it does not re-validate the firewall's state — the
guarded body is skipped) and returns Python's implicit `None`. -/
theorem firewall_deleted_idempotent (cb : List Nat) (st : DbState)
    (fwId : Nat) (r : Option Bool) (cb' : List Nat) (st' : DbState)
    (tr : List Effect)
    (h : firewall_deleted cb st fwId = .ok (r, cb', st', tr)) :
    fwId ∈ cb' ∧ firewall_deleted cb' st' fwId = .ok (none, cb', st', []) := by
  by_cases hin : fwId ∈ cb
  · simp only [firewall_deleted, if_pos hin, Except.ok.injEq,
      Prod.mk.injEq] at h
    obtain ⟨hr, hcb, hst, htr⟩ := h
    subst hcb
    exact ⟨hin, by simp [firewall_deleted, hin]⟩
  · simp only [firewall_deleted, if_neg hin] at h
    have hcb : fwId ∈ cb' := by
      cases hfw : findFw st fwId with
      | none =>
        rw [hfw] at h
        exact absurd h (by simp)
      | some fw =>
        simp only [hfw] at h
        by_cases hst2 : fw.status = .PENDING_DELETE ∨ fw.status = .ERROR
        · rw [if_pos hst2] at h
          simp only [Except.ok.injEq, Prod.mk.injEq] at h
          rw [← h.2.1]
          simp
        · rw [if_neg hst2] at h
          simp only [Except.ok.injEq, Prod.mk.injEq] at h
          rw [← h.2.1]
          simp
    exact ⟨hcb, by simp [firewall_deleted, hcb]⟩

/-- C8 witness: the agent confirms deletion of firewall 2 (destroying the
record), and the repeated confirmation is a pure no-op. -/
theorem firewall_deleted_idempotent_witness :
    (2 ∈ [2]) ∧ firewall_deleted [2] stDdel 2 = .ok (none, [2], stDdel, []) :=
  firewall_deleted_idempotent [] stD 2 (some true) [2] stDdel
    [.getFirewall 2, .getFirewall 2, .deleteRecord 2] rfl

/-- C8 counterexample: the second `firewall_deleted` call for an already
confirmed id performs no store effect at all — in particular no record read —
so it does not re-validate the firewall's state as the claim asserts. -/
theorem firewall_deleted_no_revalidation :
    firewall_deleted [] stD 2 =
      .ok (some true, [2], stDdel,
        [.getFirewall 2, .getFirewall 2, .deleteRecord 2]) ∧
    firewall_deleted [2] stDdel 2 = .ok (none, [2], stDdel, []) ∧
    Effect.getFirewall 2 ∉ ([] : List Effect) := ⟨rfl, rfl, by decide⟩

/-- Membership in the dispatched `del-router-ids`: exactly the current
routers that are not desired. -/
theorem routersDel_mem (cur new : List Nat) (x : Nat) :
    x ∈ routersDel cur new ↔ (x ∈ cur ∧ x ∉ new) := by
  simp [routersDel, List.mem_filter, List.mem_dedup]

/-- The `del-router-ids` computation only depends on the desired list up to
permutation. -/
theorem routersDel_perm (cur ids ids' : List Nat) (h : ids'.Perm ids) :
    routersDel cur ids' = routersDel cur ids := by
  unfold routersDel
  apply List.filter_congr
  intro x _
  rw [decide_eq_decide]
  exact not_congr h.mem_iff

/-- The dispatching branch of `update_firewall` with an explicit non-empty
router list: the new associations and `PENDING_UPDATE` are persisted, and the
single update notification carries `add-router-ids` = the full desired list
and `del-router-ids` = current − desired. -/
theorem update_firewall_given_eq (st : DbState) (fwId : Nat) (fw : Firewall)
    (ids : List Nat) (hfw : findFw st fwId = some fw)
    (hnp : ¬(fw.status = .PENDING_CREATE ∨ fw.status = .PENDING_UPDATE ∨
             fw.status = .PENDING_DELETE))
    (hne : ids ≠ []) (hiu : routersInUse st ids (some fwId) = false) :
    update_firewall st fwId (.given ids) =
      .ok (setStatus (setRouters st fwId ids) fwId .PENDING_UPDATE,
        [⟨.updateFw,
          { fwId := fwId,
            ruleList := _make_firewall_dict_with_rules
              (setStatus (setRouters st fwId ids) fwId .PENDING_UPDATE) fwId,
            addRouterIds := ids,
            delRouterIds :=
              routersDel (get_firewall_routers st (.fwid fwId)) ids,
            lastRouter := some ids.isEmpty }⟩]) := by
  have hens : _ensure_update_firewall st fwId = .ok () := by
    simp [_ensure_update_firewall, hfw, hnp]
  simp only [update_firewall, hens, except_bind_ok]
  rw [if_neg hne]
  rw [if_neg (show ¬(routersInUse st ids (some fwId) = true) by simp [hiu])]
  rw [except_pure_bind]
  rw [if_neg (fun hc => hne hc.1)]

/-- C2 counterexample: firewall 1 is attached to routers 3 and 4 (`R1 = 3`,
`R2 = 4`); updating it with `router_ids = [4]` dispatches
`add-router-ids = [4]` — the full desired set — not the claimed difference
desired − current `= []`. -/
theorem update_add_routers_counterexample :
    update_firewall stA 1 (.given [4]) =
      .ok (setStatus (setRouters stA 1 [4]) 1 .PENDING_UPDATE,
        [⟨.updateFw, ⟨1, [21, 22], [4], [3], some false⟩⟩]) ∧
    ([4] : List Nat) ≠ [] := ⟨rfl, by decide⟩

/-- The new attachment set `fw_new_rtrs` that `update_firewall` resolves
from the request: the explicit list when one is supplied (including the
explicitly empty one), otherwise the existing attachments. -/
def resolvedNewRouters (st : DbState) (fwId : Nat) :
    UpdateRouterSpec → List Nat
  | .absent => get_firewall_routers st (.fwid fwId)
  | .given ids => ids

theorem except_throw_bind {ε α β : Type} (e : ε) (f : α → Except ε β) :
    ((throw e : Except ε α) >>= f) = .error e := rfl

/-- Characterisation of every dispatching `update_firewall` call, whatever
shape the request had (`.absent`, `.given []`, `.given` non-empty): any
notification the call casts carries `add-router-ids` equal to the resolved
desired set and `del-router-ids` equal to `routersDel current desired`. -/
theorem update_firewall_dispatch_char (st : DbState) (fwId : Nat)
    (req : UpdateRouterSpec) (st' : DbState) (ns : List Notification)
    (h : update_firewall st fwId req = .ok (st', ns)) :
    ∀ n ∈ ns,
      n.payload.addRouterIds = resolvedNewRouters st fwId req ∧
      n.payload.delRouterIds =
        routersDel (get_firewall_routers st (.fwid fwId))
          (resolvedNewRouters st fwId req) := by
  cases hens : _ensure_update_firewall st fwId with
  | error e =>
    simp only [update_firewall, hens, except_bind_error] at h
    exact fun n hn => Except.noConfusion h
  | ok u =>
    cases u
    cases req with
    | absent =>
      simp only [update_firewall, hens, except_bind_ok, except_pure_bind] at h
      by_cases hc : get_firewall_routers st (.fwid fwId) = []
      · rw [if_pos ⟨hc, hc⟩] at h
        simp only [Except.ok.injEq, Prod.mk.injEq] at h
        intro n hn
        rw [← h.2] at hn
        cases hn
      · rw [if_neg (fun hand => hc hand.1)] at h
        simp only [Except.ok.injEq, Prod.mk.injEq] at h
        intro n hn
        rw [← h.2] at hn
        have hn2 := List.mem_singleton.mp hn
        subst hn2
        exact ⟨rfl, rfl⟩
    | given ids =>
      simp only [update_firewall, hens, except_bind_ok] at h
      by_cases hids : ids = []
      · subst hids
        rw [if_pos rfl, except_pure_bind] at h
        by_cases hc : get_firewall_routers st (.fwid fwId) = []
        · rw [if_pos ⟨rfl, hc⟩] at h
          simp only [Except.ok.injEq, Prod.mk.injEq] at h
          intro n hn
          rw [← h.2] at hn
          cases hn
        · rw [if_neg (fun hand => hc hand.2)] at h
          simp only [Except.ok.injEq, Prod.mk.injEq] at h
          intro n hn
          rw [← h.2] at hn
          have hn2 := List.mem_singleton.mp hn
          subst hn2
          exact ⟨rfl, rfl⟩
      · rw [if_neg hids] at h
        by_cases hiu : routersInUse st ids (some fwId) = true
        · rw [if_pos hiu, except_throw_bind] at h
          exact fun n hn => Except.noConfusion h
        · rw [if_neg hiu, except_pure_bind] at h
          rw [if_neg (fun hand => hids hand.1)] at h
          simp only [Except.ok.injEq, Prod.mk.injEq] at h
          intro n hn
          rw [← h.2] at hn
          have hn2 := List.mem_singleton.mp hn
          subst hn2
          exact ⟨rfl, rfl⟩

/-- C2 (amended): every `update_firewall` call that dispatches a
notification — whether the request carried an explicit router list (possibly
empty) or none — dispatches `add-router-ids` equal to the full resolved
desired router set and `del-router-ids` equal to current − desired (as
sets); updating a firewall attached to `[R1, R2]` with `router_ids = [R2]`
hence dispatches `add = [R2]`, `del = [R1]`. -/
theorem update_dispatch_routers (st : DbState) (fwId : Nat)
    (req : UpdateRouterSpec) (st' : DbState) (ns : List Notification)
    (h : update_firewall st fwId req = .ok (st', ns)) :
    ∀ n ∈ ns,
      n.payload.addRouterIds = resolvedNewRouters st fwId req ∧
      (∀ x, x ∈ n.payload.delRouterIds ↔
        (x ∈ get_firewall_routers st (.fwid fwId) ∧
         x ∉ resolvedNewRouters st fwId req)) := by
  intro n hn
  obtain ⟨hadd, hdel⟩ := update_firewall_dispatch_char st fwId req st' ns h n hn
  refine ⟨hadd, ?_⟩
  intro x
  rw [hdel]
  exact routersDel_mem _ _ x

/-- C2 witness: the contested shape — updating firewall 1 (attached to
routers 3 and 4) with an explicitly empty router list dispatches
`add = []` (the resolved desired set) and `del = [3, 4]` = current − ∅. -/
theorem update_dispatch_routers_witness :
    (⟨.updateFw, ⟨1, [21, 22], [], [3, 4], some true⟩⟩ :
        Notification).payload.addRouterIds =
      resolvedNewRouters stA 1 (.given []) ∧
    (3 ∈ (⟨.updateFw, ⟨1, [21, 22], [], [3, 4], some true⟩⟩ :
        Notification).payload.delRouterIds ↔
      (3 ∈ get_firewall_routers stA (.fwid 1) ∧
       3 ∉ resolvedNewRouters stA 1 (.given []))) := by
  have h := update_dispatch_routers stA 1 (.given [])
    (setStatus (setRouters stA 1 []) 1 .PENDING_UPDATE)
    [⟨.updateFw, ⟨1, [21, 22], [], [3, 4], some true⟩⟩] rfl
    ⟨.updateFw, ⟨1, [21, 22], [], [3, 4], some true⟩⟩ (by decide)
  exact ⟨h.1, h.2 3⟩

/-- C9: for every pair of current and desired router sets the update flow
computes — whatever shape the request had, the empty desired set included —
the added and removed sets of the dispatched payload are disjoint,
recompose the desired set as `(current − removed) ∪ added`, and the removed
set is independent of the order in which the input router ids are listed. -/
theorem update_diff_algebra (st : DbState) (fwId : Nat)
    (req : UpdateRouterSpec) (st' : DbState) (ns : List Notification)
    (h : update_firewall st fwId req = .ok (st', ns)) :
    ∀ n ∈ ns,
      (∀ x, x ∈ n.payload.addRouterIds → x ∉ n.payload.delRouterIds) ∧
      (∀ x, x ∈ resolvedNewRouters st fwId req ↔
        ((x ∈ get_firewall_routers st (.fwid fwId) ∧
          x ∉ n.payload.delRouterIds) ∨
         x ∈ n.payload.addRouterIds)) ∧
      (∀ ids', ids'.Perm (resolvedNewRouters st fwId req) →
        routersDel (get_firewall_routers st (.fwid fwId)) ids' =
          n.payload.delRouterIds) := by
  intro n hn
  obtain ⟨hadd, hdel⟩ := update_firewall_dispatch_char st fwId req st' ns h n hn
  refine ⟨?_, ?_, ?_⟩
  · intro x hx hxdel
    rw [hadd] at hx
    rw [hdel] at hxdel
    exact ((routersDel_mem _ _ x).mp hxdel).2 hx
  · intro x
    constructor
    · intro hx
      rw [hadd]
      exact Or.inr hx
    · rintro (⟨hcur, hnd⟩ | hx)
      · rw [hdel] at hnd
        by_contra hxr
        exact hnd ((routersDel_mem _ _ x).mpr ⟨hcur, hxr⟩)
      · rw [hadd] at hx
        exact hx
  · intro ids' hperm
    rw [hdel]
    exact routersDel_perm _ _ ids' hperm

/-- C9 witness: the `.absent` dispatch of firewall 1 (current and desired
both `[3, 4]`): disjointness at router 3 and order-independence of the
removed set under the permutation `[4, 3] ~ [3, 4]`. -/
theorem update_diff_algebra_witness :
    (3 ∉ (⟨.updateFw, ⟨1, [21, 22], [3, 4], [], some false⟩⟩ :
        Notification).payload.delRouterIds) ∧
    routersDel (get_firewall_routers stA (.fwid 1)) [4, 3] =
      (⟨.updateFw, ⟨1, [21, 22], [3, 4], [], some false⟩⟩ :
        Notification).payload.delRouterIds := by
  have h := update_diff_algebra stA 1 .absent
    (setStatus stA 1 .PENDING_UPDATE)
    [⟨.updateFw, ⟨1, [21, 22], [3, 4], [], some false⟩⟩] rfl
    ⟨.updateFw, ⟨1, [21, 22], [3, 4], [], some false⟩⟩ (by decide)
  exact ⟨h.1 3 (by decide), h.2.2 [4, 3] (by decide)⟩

/-- C5: `delete_firewall` persists `PENDING_DELETE` unconditionally first;
with no attached routers it destroys the record synchronously (through
`delete_db_firewall_object` on the intermediate `PENDING_DELETE` state) and
dispatches nothing; otherwise it dispatches one delete notification with
`del` = current attachments and `add` = `[]` and leaves the record in
`PENDING_DELETE`. -/
theorem delete_firewall_spec (st : DbState) (fwId : Nat) (fw : Firewall)
    (hfw : findFw st fwId = some fw) :
    (get_firewall_routers st (.fwid fwId) = [] →
      delete_firewall st fwId =
        .ok ((delete_db_firewall_object
          (setStatus st fwId .PENDING_DELETE) fwId).1, []) ∧
      findFw (delete_db_firewall_object
        (setStatus st fwId .PENDING_DELETE) fwId).1 fwId = none) ∧
    (get_firewall_routers st (.fwid fwId) ≠ [] →
      delete_firewall st fwId =
        .ok (setStatus st fwId .PENDING_DELETE,
          [⟨.deleteFw,
            { fwId := fwId,
              ruleList := _make_firewall_dict_with_rules
                (setStatus st fwId .PENDING_DELETE) fwId,
              addRouterIds := [],
              delRouterIds := get_firewall_routers st (.fwid fwId),
              lastRouter := none }⟩]) ∧
      statusOf (setStatus st fwId .PENDING_DELETE) fwId =
        some .PENDING_DELETE) := by
  have hst1 : findFw (setStatus st fwId .PENDING_DELETE) fwId =
      some { fw with status := .PENDING_DELETE } :=
    findFw_setStatus_self st fwId .PENDING_DELETE fw hfw
  have hddb : (delete_db_firewall_object
      (setStatus st fwId .PENDING_DELETE) fwId).1 =
      removeFw (setStatus st fwId .PENDING_DELETE) fwId := by
    simp [delete_db_firewall_object, hst1]
  constructor
  · intro h0
    have hR : get_firewall_routers (setStatus st fwId .PENDING_DELETE)
        (.fwid fwId) = [] := by
      rw [get_firewall_routers_setStatus]
      exact h0
    constructor
    · simp only [delete_firewall, hfw]
      rw [if_pos hR]
    · rw [hddb]
      exact findFw_removeFw _ _
  · intro h0
    have hR : get_firewall_routers (setStatus st fwId .PENDING_DELETE)
        (.fwid fwId) ≠ [] := by
      rw [get_firewall_routers_setStatus]
      exact h0
    constructor
    · simp only [delete_firewall, hfw]
      rw [if_neg hR, get_firewall_routers_setStatus]
    · simp [statusOf, hst1]

/-- C5 witness: deleting router-less firewall 2 destroys the record
synchronously; deleting attached firewall 1 leaves it in `PENDING_DELETE`. -/
theorem delete_firewall_spec_witness :
    (delete_firewall stD 2 =
      .ok ((delete_db_firewall_object
        (setStatus stD 2 .PENDING_DELETE) 2).1, []) ∧
     findFw (delete_db_firewall_object
       (setStatus stD 2 .PENDING_DELETE) 2).1 2 = none) ∧
    statusOf (setStatus stA 1 .PENDING_DELETE) 1 = some .PENDING_DELETE := by
  refine ⟨(delete_firewall_spec stD 2 ⟨2, 10, none, .PENDING_DELETE⟩ rfl).1 rfl,
    ((delete_firewall_spec stA 1 fwA rfl).2 (by decide)).2⟩

/-- C6: a `create_firewall` whose resolved attachment set is empty persists
the record directly as `INACTIVE` and dispatches nothing; an
`update_firewall` whose resolved new attachment set and current attachment
set are both empty persists `INACTIVE` and dispatches nothing. -/
theorem empty_attachments_inactive (st : DbState) (req : CreateReq)
    (fwId : Nat) (fw : Firewall) :
    (_get_routers_for_create_firewall st req.tenantId req.routerIds =
        .ok [] →
      create_firewall st req = .ok
        ({ id := req.newFwId, tenantId := req.tenantId,
           policyId := req.policyId, status := .INACTIVE },
         { st with firewalls := st.firewalls ++
             [{ id := req.newFwId, tenantId := req.tenantId,
                policyId := req.policyId, status := .INACTIVE }] }, [])) ∧
    (findFw st fwId = some fw →
      ¬(fw.status = .PENDING_CREATE ∨ fw.status = .PENDING_UPDATE ∨
        fw.status = .PENDING_DELETE) →
      get_firewall_routers st (.fwid fwId) = [] →
      update_firewall st fwId .absent =
        .ok (setStatus st fwId .INACTIVE, []) ∧
      update_firewall st fwId (.given []) =
        .ok (setStatus (setRouters st fwId []) fwId .INACTIVE, []) ∧
      statusOf (setStatus st fwId .INACTIVE) fwId = some .INACTIVE) := by
  constructor
  · intro hres
    simp [create_firewall, hres, except_bind_ok]
  · intro hfw hnp h0
    have hens : _ensure_update_firewall st fwId = .ok () := by
      simp [_ensure_update_firewall, hfw, hnp]
    refine ⟨?_, ?_, ?_⟩
    · simp [update_firewall, hens, except_bind_ok, except_pure_bind, h0]
    · simp [update_firewall, hens, except_bind_ok, except_pure_bind, h0]
    · simp [statusOf, findFw_setStatus_self st fwId .INACTIVE fw hfw]

/-- C6 witness: creating with an explicitly empty router list stays
`INACTIVE` with no dispatch; updating router-less firewall 2 stays
`INACTIVE` with no dispatch. -/
theorem empty_attachments_inactive_witness :
    create_firewall stA ⟨10, 9, none, .given []⟩ =
      .ok (⟨9, 10, none, .INACTIVE⟩,
        { stA with firewalls := stA.firewalls ++ [⟨9, 10, none, .INACTIVE⟩] },
        []) ∧
    update_firewall stA 2 .absent = .ok (setStatus stA 2 .INACTIVE, []) := by
  have h := empty_attachments_inactive stA ⟨10, 9, none, .given []⟩ 2 fwB
  exact ⟨h.1 rfl, (h.2 rfl (by decide) rfl).1⟩

/-- The notifications a policy fanout dispatches: one update per referenced
firewall, with the firewall's resolved rule list and empty add/del sets. -/
def fanoutNotifs (st : DbState) : List Nat → List Notification
  | [] => []
  | f :: rest =>
    ⟨.updateFw,
      { fwId := f, ruleList := _make_firewall_dict_with_rules st f,
        addRouterIds := [], delRouterIds := [], lastRouter := none }⟩ ::
      fanoutNotifs st rest

/-- The store after a policy fanout: every listed firewall set to
`PENDING_UPDATE`, in order. -/
def setAllPendingUpdate (st : DbState) : List Nat → DbState
  | [] => st
  | f :: rest => setAllPendingUpdate (setStatus st f .PENDING_UPDATE) rest

theorem fanoutNotifs_setStatus (st : DbState) (g : Nat) (s : Status) :
    ∀ l, fanoutNotifs (setStatus st g s) l = fanoutNotifs st l := by
  intro l
  induction l with
  | nil => rfl
  | cons a l ih => simp [fanoutNotifs, make_rules_setStatus, ih]

theorem fanoutNotifs_mem (st : DbState) (l : List Nat) (n : Notification)
    (h : n ∈ fanoutNotifs st l) :
    n.kind = .updateFw ∧ n.payload.addRouterIds = [] ∧
    n.payload.delRouterIds = [] ∧
    n.payload.ruleList =
      _make_firewall_dict_with_rules st n.payload.fwId := by
  induction l with
  | nil => cases h
  | cons a l ih =>
    rcases List.mem_cons.mp h with h1 | h1
    · subst h1
      exact ⟨rfl, rfl, rfl, rfl⟩
    · exact ih h1

/-- Behaviour of the fanout loop when every listed firewall exists: it
succeeds, dispatches `fanoutNotifs`, sets every listed firewall to
`PENDING_UPDATE` and changes no other status. -/
theorem rpcUpdateFwList_spec (l : List Nat) :
    ∀ st : DbState, (∀ f ∈ l, (findFw st f).isSome) →
    rpcUpdateFwList st l =
        .ok (setAllPendingUpdate st l, fanoutNotifs st l) ∧
    (∀ f ∈ l, statusOf (setAllPendingUpdate st l) f =
        some .PENDING_UPDATE) ∧
    (∀ g s0, statusOf st g = some s0 →
      statusOf (setAllPendingUpdate st l) g = some s0 ∨
      statusOf (setAllPendingUpdate st l) g = some .PENDING_UPDATE) := by
  induction l with
  | nil =>
    intro st hex
    refine ⟨rfl, ?_, ?_⟩
    · intro f hf
      cases hf
    · intro g s0 h
      exact Or.inl h
  | cons a l ih =>
    intro st hex
    obtain ⟨fwa, hfwa⟩ :=
      Option.isSome_iff_exists.mp (hex a (List.mem_cons_self a l))
    have hrpc : _rpc_update_firewall st a =
        .ok (setStatus st a .PENDING_UPDATE,
          [⟨.updateFw,
            { fwId := a,
              ruleList := _make_firewall_dict_with_rules
                (setStatus st a .PENDING_UPDATE) a,
              addRouterIds := [], delRouterIds := [],
              lastRouter := none }⟩]) := by
      simp [_rpc_update_firewall, hfwa, get_firewall_routers]
    have hex' : ∀ f ∈ l,
        (findFw (setStatus st a .PENDING_UPDATE) f).isSome := by
      intro f hf
      rw [findFw_setStatus_isSome]
      exact hex f (List.mem_cons_of_mem a hf)
    obtain ⟨heq, hall, hpres⟩ := ih (setStatus st a .PENDING_UPDATE) hex'
    refine ⟨?_, ?_, ?_⟩
    · simp only [rpcUpdateFwList, hrpc, except_bind_ok, heq,
        except_pure_bind]
      rw [fanoutNotifs_setStatus, make_rules_setStatus]
      rfl
    · intro f hf
      rcases List.mem_cons.mp hf with h1 | h1
      · subst h1
        have h1 : statusOf (setStatus st f .PENDING_UPDATE) f =
            some .PENDING_UPDATE := by
          simp [statusOf, findFw_setStatus_self st f .PENDING_UPDATE fwa hfwa]
        rcases hpres f .PENDING_UPDATE h1 with h2 | h2 <;> exact h2
      · exact hall f h1
    · intro g s0 hg
      by_cases hga : g = a
      · subst hga
        obtain ⟨fwg, hfwg, _⟩ := Option.map_eq_some'.mp hg
        have h1 : statusOf (setStatus st g .PENDING_UPDATE) g =
            some .PENDING_UPDATE := by
          simp [statusOf, findFw_setStatus_self st g .PENDING_UPDATE fwg hfwg]
        rcases hpres g .PENDING_UPDATE h1 with h2 | h2 <;> exact Or.inr h2
      · have h1 : statusOf (setStatus st a .PENDING_UPDATE) g = some s0 := by
          simp only [statusOf]
          rw [findFw_setStatus_other st a g .PENDING_UPDATE
            (fun he => hga he.symm)]
          exact hg
        exact hpres g s0 h1

/-- C7: a policy-level edit fans out over the policy's `firewall_list`:
the fanout sets every referencing firewall to `PENDING_UPDATE` and
dispatches per firewall one update notification with
`add-router-ids = []` (the source's lookup is keyed by the Python builtin
`id`, which matches no firewall's associations) and `del-router-ids = []`,
carrying the firewall's current rule list; `update_firewall_policy`,
`insert_rule`, `remove_rule` and `update_firewall_rule` (the rule edit,
fanning out through the edited rule's policy) all reduce to this fanout on
the edited store once their guard passes. -/
theorem policy_edit_fanout (st : DbState) (pid : Nat) (p : Policy)
    (hp : findPolicy st pid = some p)
    (hex : ∀ f ∈ p.firewallList, (findFw st f).isSome) :
    _rpc_update_firewall_policy st pid =
      .ok (setAllPendingUpdate st p.firewallList,
        fanoutNotifs st p.firewallList) ∧
    (∀ f ∈ p.firewallList,
      statusOf (setAllPendingUpdate st p.firewallList) f =
        some .PENDING_UPDATE) ∧
    (∀ n ∈ fanoutNotifs st p.firewallList,
      n.kind = .updateFw ∧ n.payload.addRouterIds = [] ∧
      n.payload.delRouterIds = [] ∧
      n.payload.ruleList =
        _make_firewall_dict_with_rules st n.payload.fwId) ∧
    (∀ e, _ensure_update_firewall_policy st pid = .ok () →
      update_firewall_policy st pid e =
        _rpc_update_firewall_policy (e st) pid ∧
      insert_rule st pid e = _rpc_update_firewall_policy (e st) pid ∧
      remove_rule st pid e = _rpc_update_firewall_policy (e st) pid) ∧
    (∀ rid e r pid2, _ensure_update_firewall_rule st rid = .ok () →
      findRule (e st) rid = some r → r.policyId = some pid2 →
      update_firewall_rule st rid e =
        _rpc_update_firewall_policy (e st) pid2) := by
  obtain ⟨heq, hall, _⟩ := rpcUpdateFwList_spec p.firewallList st hex
  refine ⟨?_, hall, ?_, ?_, ?_⟩
  · simp [_rpc_update_firewall_policy, hp, heq]
  · intro n hn
    exact fanoutNotifs_mem st p.firewallList n hn
  · intro e hens
    refine ⟨?_, ?_, ?_⟩ <;>
      simp [update_firewall_policy, insert_rule, remove_rule, hens,
        except_bind_ok]
  · intro rid e r pid2 hensr hr hrp
    simp [update_firewall_rule, hensr, except_bind_ok, hr, hrp]

/-- C7 witness: editing policy 5 (referenced by firewall 1) fans out one
update, and both the public policy update and the rule edit of rule 21
reduce to the fanout. -/
theorem policy_edit_fanout_witness :
    _rpc_update_firewall_policy stA 5 =
      .ok (setAllPendingUpdate stA [1], fanoutNotifs stA [1]) ∧
    update_firewall_policy stA 5 (fun s => s) =
      _rpc_update_firewall_policy stA 5 ∧
    update_firewall_rule stA 21 (fun s => s) =
      _rpc_update_firewall_policy stA 5 := by
  have h := policy_edit_fanout stA 5 ⟨5, [21, 22], [1]⟩ rfl (by decide)
  exact ⟨h.1, (h.2.2.2.1 (fun s => s) rfl).1,
    h.2.2.2.2 21 (fun s => s) ⟨21, some 5⟩ 5 rfl rfl rfl⟩

/-- C10: a record is destroyed only from `PENDING_DELETE`:
`delete_db_firewall_object` removes the record iff its status is
`PENDING_DELETE` and leaves the store untouched otherwise; a
`firewall_deleted` call that removed the record found it in
`PENDING_DELETE`; and `delete_firewall`'s synchronous removal is
`delete_db_firewall_object` applied to the intermediate state it has just
set to `PENDING_DELETE`. -/
theorem destroy_requires_pending_delete (st : DbState) (fwId : Nat)
    (fw : Firewall) (hfw : findFw st fwId = some fw) :
    (findFw (delete_db_firewall_object st fwId).1 fwId = none ↔
      fw.status = .PENDING_DELETE) ∧
    (fw.status ≠ .PENDING_DELETE →
      (delete_db_firewall_object st fwId).1 = st) ∧
    (∀ cb r cb' st' tr,
      firewall_deleted cb st fwId = .ok (r, cb', st', tr) →
      findFw st' fwId = none → fw.status = .PENDING_DELETE) ∧
    (∀ st' ns, delete_firewall st fwId = .ok (st', ns) →
      findFw st' fwId = none →
      st' = (delete_db_firewall_object
        (setStatus st fwId .PENDING_DELETE) fwId).1 ∧
      statusOf (setStatus st fwId .PENDING_DELETE) fwId =
        some .PENDING_DELETE) := by
  have hunch : fw.status ≠ .PENDING_DELETE →
      (delete_db_firewall_object st fwId).1 = st := by
    intro hne
    simp [delete_db_firewall_object, hfw, hne]
  refine ⟨?_, hunch, ?_, ?_⟩
  · constructor
    · intro hnone
      by_contra hne
      rw [hunch hne, hfw] at hnone
      cases hnone
    · intro hpd
      simp [delete_db_firewall_object, hfw, hpd, findFw_removeFw]
  · intro cb r cb' st' tr h hnone
    by_cases hin : fwId ∈ cb
    · simp only [firewall_deleted, if_pos hin, Except.ok.injEq,
        Prod.mk.injEq] at h
      obtain ⟨_, _, hst, _⟩ := h
      rw [← hst, hfw] at hnone
      cases hnone
    · simp only [firewall_deleted, if_neg hin, hfw] at h
      by_cases hst2 : fw.status = .PENDING_DELETE ∨ fw.status = .ERROR
      · rcases hst2 with hpd | herr
        · exact hpd
        · rw [if_pos (Or.inr herr)] at h
          simp only [Except.ok.injEq, Prod.mk.injEq] at h
          obtain ⟨_, _, hst, _⟩ := h
          have hne : fw.status ≠ .PENDING_DELETE := by
            rw [herr]
            intro hx
            cases hx
          rw [← hst, hunch hne, hfw] at hnone
          cases hnone
      · rw [if_neg hst2] at h
        simp only [Except.ok.injEq, Prod.mk.injEq] at h
        obtain ⟨_, _, hst, _⟩ := h
        rw [← hst, findFw_setStatus_self st fwId .ERROR fw hfw] at hnone
        cases hnone
  · intro st' ns h hnone
    simp only [delete_firewall, hfw] at h
    by_cases hdel : get_firewall_routers (setStatus st fwId .PENDING_DELETE)
        (.fwid fwId) = []
    · rw [if_pos hdel] at h
      simp only [Except.ok.injEq, Prod.mk.injEq] at h
      refine ⟨h.1.symm, ?_⟩
      simp [statusOf, findFw_setStatus_self st fwId .PENDING_DELETE fw hfw]
    · rw [if_neg hdel] at h
      simp only [Except.ok.injEq, Prod.mk.injEq] at h
      rw [← h.1, findFw_setStatus_self st fwId .PENDING_DELETE fw hfw]
        at hnone
      cases hnone

/-- C10 witness: destroying the `PENDING_DELETE` firewall 2 through
`delete_db_firewall_object` removes its record. -/
theorem destroy_requires_pending_delete_witness :
    findFw (delete_db_firewall_object stD 2).1 2 = none :=
  (destroy_requires_pending_delete stD 2
    ⟨2, 10, none, .PENDING_DELETE⟩ rfl).1.mpr rfl

end Fwaas
